import Mathlib

/-!
Shallow embedding of the task-coordination core of the `rozet` repository:
`orchestrator/core/file_locking.py`, `orchestrator/core/coordinator.py`,
`orchestrator/core/task_planner.py`, and the result-verification step of
`orchestrator/workers/local_worker.py`.

Modelling conventions:

* Wall-clock time (`time.time()`) is a rational number threaded explicitly;
  `time.sleep(0.01)` advances it by `tick = 1/100`.  Within one loop
  iteration a single reading `now` is used for both the expiry check and the
  elapsed-time check (sequential idealization of two adjacent calls).
* The `while True` busy wait of `FileLockManager.acquire_lock` is a
  fuel-indexed recursion, one fuel unit per iteration; `fuelOut` is a pure
  modelling artifact for exhausted fuel (the theorems always supply enough
  fuel) and corresponds to no behaviour of the source.
* Path canonicalisation `str(Path(p).resolve())` is a filesystem operation
  and is not modelled: keys are taken to be already-normalized path strings.
* Python dicts are association lists with distinct keys; `del` is removal,
  assignment of a fresh key appends.
* Sequential semantics throughout: no other thread mutates the lock table
  while a call is in progress, which is the setting of all the claims.
-/

/-- Model of the `FileLock` record of `file_locking.py`.  The
`threading.Lock` member carries no information in a sequential model and is
omitted.  `acquired_at` is the `time.time()` reading taken in `__init__`,
supplied explicitly by the caller that constructs the record. -/
structure FileLock where
  file_path : String
  acquired_at : ℚ
  expiry : Option ℚ
deriving DecidableEq

/-- Model of `FileLock.is_expired`: false when `expiry is None`, otherwise
`(time.time() - self.acquired_at) > self.expiry` with `now` the current
clock reading. -/
def FileLock.is_expired (l : FileLock) (now : ℚ) : Bool :=
  match l.expiry with
  | none => false
  | some e => decide (now - l.acquired_at > e)

/-- Model of the `LockTimeoutError(file_path, timeout)` exception. -/
structure LockTimeoutError where
  file_path : String
  timeout : ℚ
deriving DecidableEq

/-- Model of the `FileLockManager._locks` dictionary. -/
abbrev LockTable := List (String × FileLock)

/-- Dictionary read `self._locks.get(key)`. -/
def lookupLock (tbl : LockTable) (key : String) : Option FileLock :=
  (tbl.find? (fun p => p.1 == key)).map (fun p => p.2)

/-- Dictionary deletion `del self._locks[key]` (no effect when absent). -/
def removeLock (tbl : LockTable) (key : String) : LockTable :=
  tbl.filter (fun p => p.1 != key)

/-- Dictionary assignment `self._locks[key] = l`.  In the source the
assignment only ever happens when the key is absent (possibly because the
expired record was just deleted), so append-after-remove is the exact dict
behaviour. -/
def setLock (tbl : LockTable) (key : String) (l : FileLock) : LockTable :=
  removeLock tbl key ++ [(key, l)]

/-- Sleep interval `time.sleep(0.01)` of the acquire busy-wait loop. -/
def tick : ℚ := mkRat 1 100

/-- Outcome of one `FileLockManager.acquire_lock` call: a successful return
(updated table, the returned `FileLock`, the return instant), a raised
`LockTimeoutError` (table unchanged by the raise, raise instant), or the
fuel-exhaustion modelling artifact. -/
inductive AcquireOutcome where
  | ok (tbl : LockTable) (lock : FileLock) (now : ℚ)
  | timeout (err : LockTimeoutError) (tbl : LockTable) (now : ℚ)
  | fuelOut
deriving DecidableEq

/-- Model of the `while True` loop body of `FileLockManager.acquire_lock`,
one fuel unit per iteration.  `start` is the `start_time` reading taken
before the loop; `now` the current reading.  Each iteration checks the
table first (removing an expired record, acquiring when no record remains),
only then compares the elapsed time against `timeout`, and otherwise sleeps
`tick` and retries. -/
def acquireLoop (key : String) (timeout : ℚ) (expiry : Option ℚ) (start : ℚ) :
    Nat → LockTable → ℚ → AcquireOutcome
  | 0, _, _ => .fuelOut
  | fuel + 1, tbl, now =>
    match lookupLock tbl key with
    | some existing =>
      if existing.is_expired now then
        let tbl' := removeLock tbl key
        let newLock : FileLock := ⟨key, now, expiry⟩
        .ok (setLock tbl' key newLock) newLock now
      else if now - start ≥ timeout then
        .timeout ⟨key, timeout⟩ tbl now
      else
        acquireLoop key timeout expiry start fuel tbl (now + tick)
    | none =>
      let newLock : FileLock := ⟨key, now, expiry⟩
      .ok (setLock tbl key newLock) newLock now

/-- Model of `FileLockManager.acquire_lock` on an already-normalized `key`,
entered at clock reading `now` (so `start_time = now`). -/
def acquire_lock (tbl : LockTable) (key : String) (timeout : ℚ)
    (expiry : Option ℚ) (now : ℚ) (fuel : Nat) : AcquireOutcome :=
  acquireLoop key timeout expiry now fuel tbl now

/-- Model of `FileLockManager.release_lock`: delete the record when present;
the absent case only logs a warning and leaves the table unchanged. -/
def release_lock (tbl : LockTable) (key : String) : LockTable :=
  removeLock tbl key

/-- Model of the `TaskSpec` dataclass of `task_planner.py`. -/
structure TaskSpec where
  task_id : String
  description : String
  files : List String := []
  success_criteria : List String := []
  budget : String := "medium"
  dependencies : List String := []
deriving DecidableEq

/-- Model of the `WorkerResult` dataclass of `coordinator.py`; a
`tests_run` entry (`Dict[str, str]`) is an association list. -/
structure WorkerResult where
  task_id : String
  success : Bool
  files_modified : List String
  files_created : List String
  tests_run : List (List (String × String))
  verification_passed : Bool
  errors : List String
  logs : String := ""
deriving DecidableEq

/-- Exceptions that can escape the model of `Coordinator.execute_tasks`. -/
inductive ExecException where
  /-- The `TypeError` raised by the generic `except Exception` handler of
  `execute_tasks`: the `WorkerResult(...)` call there omits the required
  `tests_run` field of the dataclass, so building the failure result itself
  raises.  Carries the task id of the failing task. -/
  | typeErrorMissingTestsRun (task_id : String)
  /-- Modelling artifact: busy-wait fuel exhausted. -/
  | outOfFuel
deriving DecidableEq

/-- Model of a worker capability: `worker.execute(task, working_dir)`
either returns a `WorkerResult` or raises (`.error` carries `str(exc)`). -/
abbrev WorkerFn := TaskSpec → Option String → Except String WorkerResult

/-- Lock-acquisition timeout used by the coordinator (`timeout=5.0`). -/
def coordTimeout : ℚ := 5

/-- Message of `LockTimeoutError` as the coordinator sees it
(`f"Could not acquire lock for {file_path} within {timeout}s"` with the
float `5.0` rendered the way Python renders it). -/
def lockTimeoutMessage (path : String) : String :=
  "Could not acquire lock for " ++ path ++ " within 5.0s"

/-- The coordinator's error string
`f"Could not acquire lock for {file_path}: {e}"`. -/
def coordinatorLockError (path : String) : String :=
  "Could not acquire lock for " ++ path ++ ": " ++ lockTimeoutMessage path

/-- The failure `WorkerResult` appended by the `except LockTimeoutError`
branch of `execute_tasks`. -/
def lockFailResult (tid path : String) : WorkerResult :=
  { task_id := tid
    success := false
    files_modified := []
    files_created := []
    tests_run := []
    verification_passed := false
    errors := [coordinatorLockError path]
    logs := "Lock timeout: " ++ lockTimeoutMessage path }

/-- Mutable per-call state threaded through `execute_tasks`: the shared
lock table and the clock. -/
structure CoordState where
  tbl : LockTable
  now : ℚ
deriving DecidableEq

/-- Model of the `for file_path in task.files` lock-acquisition loop of
`Coordinator.execute_tasks`.  On `LockTimeoutError` the source appends a
failure result, releases the locks named in `locked_files`, and executes
`continue` — a statement that targets this inner loop, i.e. it moves on to
the next file of the same task; `locked_files` is not cleared. -/
def lockFiles (fuel : Nat) (tid : String) :
    List String → CoordState → List String → List WorkerResult →
    Except ExecException (CoordState × List String × List WorkerResult)
  | [], st, locked, results => .ok (st, locked, results)
  | path :: rest, st, locked, results =>
    match acquire_lock st.tbl path coordTimeout none st.now fuel with
    | .ok tbl' _ now' =>
      lockFiles fuel tid rest ⟨tbl', now'⟩ (locked ++ [path]) results
    | .timeout _ tbl' now' =>
      let results' := results ++ [lockFailResult tid path]
      let tbl'' := locked.foldl (fun t f => release_lock t f) tbl'
      lockFiles fuel tid rest ⟨tbl'', now'⟩ locked results'
    | .fuelOut => .error .outOfFuel

/-- Model of one iteration of the `for task in tasks` loop of
`execute_tasks` (observability client absent, its default).  After the
lock loop, the worker runs only under `if locked_files or not task.files`;
a worker exception reaches the generic handler, whose own `WorkerResult`
construction raises `TypeError` (missing `tests_run`), which escapes after
the `finally` block has released the locks in `locked_files`. -/
def runTask (worker : WorkerFn) (wd : Option String) (fuel : Nat)
    (task : TaskSpec) (st : CoordState) (results : List WorkerResult) :
    Except ExecException (CoordState × List WorkerResult) :=
  match lockFiles fuel task.task_id task.files st [] results with
  | .error e => .error e
  | .ok (st1, locked, results1) =>
    let releaseAll := fun (t : LockTable) =>
      locked.foldl (fun a f => release_lock a f) t
    if !locked.isEmpty || task.files.isEmpty then
      match worker task wd with
      | .ok r => .ok (⟨releaseAll st1.tbl, st1.now⟩, results1 ++ [r])
      | .error _ => .error (.typeErrorMissingTestsRun task.task_id)
    else
      .ok (⟨releaseAll st1.tbl, st1.now⟩, results1)

/-- Model of the `for task in tasks` loop of `execute_tasks`. -/
def executeTasksLoop (worker : WorkerFn) (wd : Option String) (fuel : Nat) :
    List TaskSpec → CoordState → List WorkerResult →
    Except ExecException (CoordState × List WorkerResult)
  | [], st, results => .ok (st, results)
  | task :: rest, st, results =>
    match runTask worker wd fuel task st results with
    | .error e => .error e
    | .ok (st', results') => executeTasksLoop worker wd fuel rest st' results'

/-- Model of `Coordinator.execute_tasks`, entered with lock table `tbl`
(the injected `FileLockManager` may already hold locks) at clock reading
`now`.  Returns the `results` list, or the exception that escaped. -/
def execute_tasks (worker : WorkerFn) (tasks : List TaskSpec)
    (wd : Option String) (tbl : LockTable) (now : ℚ) (fuel : Nat) :
    Except ExecException (List WorkerResult) :=
  (executeTasksLoop worker wd fuel tasks ⟨tbl, now⟩ []).map (fun p => p.2)

/-- A worker that always returns a bare success result (used by the
concrete coordinator evaluations). -/
def okWorker : WorkerFn := fun t _ =>
  .ok { task_id := t.task_id
        success := true
        files_modified := []
        files_created := []
        tests_run := []
        verification_passed := true
        errors := [] }

/-- A worker that returns a result with the marker id `"WORKER_RAN"`. -/
def markerWorker : WorkerFn := fun _ _ =>
  .ok { task_id := "WORKER_RAN"
        success := true
        files_modified := []
        files_created := []
        tests_run := []
        verification_passed := true
        errors := [] }

/-- A worker whose `execute` always raises. -/
def raisingWorker : WorkerFn := fun _ _ => .error "boom"

/-- Model of `LocalWorker._verify_files`.  The filesystem check
`(working_dir / file_path).exists()` is abstracted as the oracle
`fileExists` applied to the claimed relative path (the working directory is
fixed for the call).  The Python method mutates `result` in place; the
model returns the updated record.  Source order: the two claimed lists are
first overwritten with their verified filtrations, and only then is the
downgrade condition
`(result.files_modified or result.files_created) and not verified_modified
and not verified_created` evaluated. -/
def verify_files (fileExists : String → Bool) (result : WorkerResult) :
    WorkerResult :=
  let verified_modified := result.files_modified.filter fileExists
  let verified_created := result.files_created.filter fileExists
  let result1 := { result with
    files_modified := verified_modified
    files_created := verified_created }
  if (!result1.files_modified.isEmpty || !result1.files_created.isEmpty)
      && verified_modified.isEmpty && verified_created.isEmpty then
    if result1.verification_passed then
      { result1 with
        verification_passed := false
        errors := result1.errors ++
          ["Verification failed: claimed files do not exist"] }
    else result1
  else result1

/-- Python `str.split()` with no argument: split on whitespace runs,
discarding empty pieces. -/
def pySplit (s : String) : List String :=
  (s.split Char.isWhitespace).filter (fun t => !t.isEmpty)

/-- Python `str.strip(chars)`: drop the characters of `chars` from both
ends. -/
def pyStripChars (chars : List Char) (s : String) : String :=
  let l := s.toList.dropWhile (fun c => chars.contains c)
  String.mk ((l.reverse.dropWhile (fun c => chars.contains c)).reverse)

/-- First index at which `sub` occurs in the char list (Python `str.find`,
with `none` for `-1`). -/
def findSubAux (sub : List Char) : List Char → Nat → Option Nat
  | [], i => if sub.isEmpty then some i else none
  | c :: rest, i =>
    if sub.isPrefixOf (c :: rest) then some i
    else findSubAux sub rest (i + 1)

/-- Python `s.find(sub)`. -/
def pyFind (s sub : String) : Option Nat :=
  findSubAux sub.toList s.toList 0

/-- Python `s.find(sub, start)` (absolute index returned). -/
def pyFindFrom (s sub : String) (start : Nat) : Option Nat :=
  (findSubAux sub.toList (s.toList.drop start) 0).map (fun i => i + start)

/-- Python `sub in s` substring containment. -/
def pyContains (s sub : String) : Bool :=
  (pyFind s sub).isSome

/-- Last index at which `sub` occurs (helper for Python `str.rfind`). -/
def findLastSubAux (sub : List Char) : List Char → Nat → Option Nat → Option Nat
  | [], i, acc => if sub.isEmpty then some i else acc
  | c :: rest, i, acc =>
    findLastSubAux sub rest (i + 1)
      (if sub.isPrefixOf (c :: rest) then some i else acc)

/-- Python `s.rfind(sub)`. -/
def pyRFind (s sub : String) : Option Nat :=
  findLastSubAux sub.toList s.toList 0 none

/-- Python slice `s[a:b]` for natural bounds `a ≤ b`. -/
def pySlice (s : String) (a b : Nat) : String :=
  String.mk ((s.toList.drop a).take (b - a))

/-- Model of the Python values handled by `TaskPlanner.plan`: the possible
outputs of `json.loads` (JSON numbers restricted to integers, which is all
the claims need). -/
inductive PyVal where
  | pstr (s : String)
  | pint (n : Int)
  | pbool (b : Bool)
  | pnone
  | plist (xs : List PyVal)
  | pdict (kvs : List (String × PyVal))

/-- Python truthiness of a value. -/
def PyVal.truthy : PyVal → Bool
  | .pstr s => !s.isEmpty
  | .pint n => n != 0
  | .pbool b => b
  | .pnone => false
  | .plist xs => !xs.isEmpty
  | .pdict kvs => !kvs.isEmpty

mutual

/-- Python `repr` of a value (used by `str` on container elements). -/
def PyVal.reprStr : PyVal → String
  | .pstr s => "'" ++ s ++ "'"
  | .pint n => toString n
  | .pbool b => if b then "True" else "False"
  | .pnone => "None"
  | .plist xs => "[" ++ PyVal.reprList xs ++ "]"
  | .pdict kvs => "\x7b" ++ PyVal.reprDict kvs ++ "\x7d"

/-- Comma-joined `repr`s of list elements. -/
def PyVal.reprList : List PyVal → String
  | [] => ""
  | [x] => PyVal.reprStr x
  | x :: rest => PyVal.reprStr x ++ ", " ++ PyVal.reprList rest

/-- Comma-joined `repr`s of dict items. -/
def PyVal.reprDict : List (String × PyVal) → String
  | [] => ""
  | [kv] => "'" ++ kv.1 ++ "': " ++ PyVal.reprStr kv.2
  | kv :: rest =>
    "'" ++ kv.1 ++ "': " ++ PyVal.reprStr kv.2 ++ ", " ++ PyVal.reprDict rest

end

/-- Python `str(v)`: the identity on strings, `repr`-based rendering on the
container types. -/
def PyVal.str : PyVal → String
  | .pstr s => s
  | .pint n => toString n
  | .pbool b => if b then "True" else "False"
  | .pnone => "None"
  | .plist xs => "[" ++ PyVal.reprList xs ++ "]"
  | .pdict kvs => "\x7b" ++ PyVal.reprDict kvs ++ "\x7d"

/-- Python `d.get(k)` on a JSON object (string keys, distinct). -/
def dictGet (kvs : List (String × PyVal)) (k : String) : Option PyVal :=
  (kvs.find? (fun p => p.1 == k)).map (fun p => p.2)

/-- Python `[str(f) for f in v]`: iterating a value; lists yield their
elements, strings yield their characters as 1-character strings, dicts
yield their keys; the remaining types raise `TypeError` (`none`). -/
def iterStrs : PyVal → Option (List String)
  | .plist xs => some (xs.map PyVal.str)
  | .pstr s => some (s.toList.map (fun c => String.mk [c]))
  | .pdict kvs => some (kvs.map (fun kv => kv.1))
  | _ => none

/-- Model of one iteration of the task-construction loop of
`TaskPlanner.plan`.  `n_accepted` is `len(tasks)` at the moment the entry
is processed (the count of entries accepted so far).  A `none` result
models the per-entry `except Exception: continue`: a non-dict entry raises
`AttributeError` on `.get`, and a non-iterable list-valued field raises
`TypeError` inside a comprehension.  A missing `task_id` key makes `.get`
return `None`, and `None or default` (like any falsy value `or` default)
selects the default `f"T{len(tasks)+1}"`. -/
def coerceEntry (n_accepted : Nat) (entry : PyVal) : Option TaskSpec :=
  match entry with
  | .pdict kvs =>
    let tidDefault := "T" ++ toString (n_accepted + 1)
    let tid :=
      match dictGet kvs "task_id" with
      | some v => if v.truthy then v.str else tidDefault
      | none => tidDefault
    let description := ((dictGet kvs "description").getD (.pstr "")).str.trim
    match iterStrs ((dictGet kvs "files").getD (.plist [])) with
    | none => none
    | some files =>
      match (iterStrs ((dictGet kvs "success_criteria").getD (.plist []))).map
          (fun l => l.map String.trim) with
      | none => none
      | some crits =>
        let budget := ((dictGet kvs "budget").getD (.pstr "medium")).str
        match iterStrs ((dictGet kvs "dependencies").getD (.plist [])) with
        | none => none
        | some deps =>
          some { task_id := tid
                 description := description
                 files := files
                 success_criteria := crits
                 budget := budget
                 dependencies := deps }
  | _ => none

/-- Model of the `for entry in tasks_payload` loop of `TaskPlanner.plan`;
`acc` is the `tasks` list built so far. -/
def planLoop : List PyVal → List TaskSpec → List TaskSpec
  | [], acc => acc
  | e :: rest, acc =>
    match coerceEntry acc.length e with
    | some t => planLoop rest (acc ++ [t])
    | none => planLoop rest acc

/-- Model of the response-text extraction pipeline of `TaskPlanner.plan`:
strip a markdown code fence when present, otherwise search for an
outermost `{...}` region when the stripped text does not already start
with `{`, then strip whitespace. -/
def extractJson (raw0 : String) : String :=
  let fence := "```"
  let fenceJson := "```json"
  let r1 :=
    if pyContains raw0 fenceJson then
      match pyFind raw0 fenceJson with
      | some idx =>
        let start := idx + 7
        match pyFindFrom raw0 fence start with
        | some e => if start < e then (pySlice raw0 start e).trim else raw0
        | none => raw0
      | none => raw0
    else if pyContains raw0 fence then
      match pyFind raw0 fence with
      | some idx =>
        let start := idx + 3
        match pyFindFrom raw0 fence start with
        | some e => if start < e then (pySlice raw0 start e).trim else raw0
        | none => raw0
      | none => raw0
    else raw0
  let r2 :=
    if !(r1.trim.startsWith "\x7b") then
      match pyFind r1 "\x7b", pyRFind r1 "\x7d" with
      | some js, some je => if js < je then (pySlice r1 js (je + 1)).trim else r1
      | _, _ => r1
    else r1
  r2.trim

/-- Characters stripped from token ends in `_fallback_plan`:
`token.strip(",.'\"")` — comma, period, single quote, double quote. -/
def stripSet : List Char := [',', '.', Char.ofNat 39, Char.ofNat 34]

/-- Recognized extensions in `_fallback_plan`. -/
def fallbackExts : List String :=
  [".py", ".md", ".json", ".yaml", ".yml", ".txt"]

/-- Model of the token loop of `TaskPlanner._fallback_plan`: each
whitespace token is cleaned with `strip(",.'\"")` and the cleaned token is
kept when it contains `/`, does not start with `http`, and ends in a
recognized extension. -/
def fallbackFilesLoop : List String → List String
  | [] => []
  | token :: rest =>
    let cleaned := pyStripChars stripSet token
    if pyContains cleaned "/" && !cleaned.startsWith "http" &&
        fallbackExts.any (fun ext => cleaned.endsWith ext) then
      cleaned :: fallbackFilesLoop rest
    else fallbackFilesLoop rest

/-- Model of the de-duplication loop of `_fallback_plan` (`seen` set plus
append, preserving first occurrences). -/
def dedupLoop : List String → List String → List String
  | [], _ => []
  | p :: rest, seen =>
    if seen.contains p then dedupLoop rest seen
    else p :: dedupLoop rest (p :: seen)

/-- Model of the `files` computation of `TaskPlanner._fallback_plan`. -/
def fallback_files (request : String) : List String :=
  dedupLoop (fallbackFilesLoop (pySplit (request.replace "\n" " "))) []

/-- Model of `TaskPlanner._fallback_plan` (the `error`/`raw_response`
keyword arguments only feed logging). -/
def fallback_plan (request : String) : List TaskSpec :=
  [{ task_id := "T1"
     description := "Implement user request: " ++ request
     files := fallback_files request
     success_criteria := ["Request completed and verified"]
     budget := "medium"
     dependencies := [] }]

/-- Exceptions that can escape the model of `TaskPlanner.plan`. -/
inductive PlanException where
  /-- `payload.get(...)` on a non-dict `json.loads` result. -/
  | attributeError
  /-- Slicing `payload.get("tasks", [])[: max_tasks]` on a value that is
  neither a list nor a string (`None`, a number, a bool, or a dict). -/
  | typeError
deriving DecidableEq

/-- Model of `TaskPlanner.plan`.  The two external capabilities are passed
as oracles: `llm` is the outcome of `self._llm.invoke` (`.error` = the
call raised, `.ok` = the response `content` string), and `loads` models
`json.loads` (`.error` = `JSONDecodeError`).  The slice
`payload.get("tasks", [])[: max_tasks]` is applied to lists and to strings
(whose characters then all fail coercion); other shapes raise. -/
def plan (llm : Except String String) (loads : String → Except String PyVal)
    (request : String) (max_tasks : Nat) :
    Except PlanException (List TaskSpec) :=
  match llm with
  | .error _ => .ok (fallback_plan request)
  | .ok content =>
    let raw := extractJson content
    if raw.isEmpty then .ok (fallback_plan request)
    else
      match loads raw with
      | .error _ => .ok (fallback_plan request)
      | .ok payload =>
        match payload with
        | .pdict kvs =>
          match (dictGet kvs "tasks").getD (.plist []) with
          | .plist xs =>
            let ts := planLoop (xs.take max_tasks) []
            if ts.isEmpty then .ok (fallback_plan request) else .ok ts
          | .pstr s =>
            let chars := (s.toList.take max_tasks).map
              (fun c => PyVal.pstr (String.mk [c]))
            let ts := planLoop chars []
            if ts.isEmpty then .ok (fallback_plan request) else .ok ts
          | _ => .error .typeError
        | _ => .error .attributeError

/-- The `files` computation exactly as claim C6 words it: every
whitespace-delimited token of the request that contains `/` and ends in a
recognized extension, de-duplicated preserving order — with no token
cleaning and no `http` exclusion.  Written from the claim, for comparison
with `fallback_files`. -/
def claimedFallbackFiles (request : String) : List String :=
  dedupLoop ((pySplit request).filter (fun token =>
    pyContains token "/" &&
      fallbackExts.any (fun ext => token.endsWith ext))) []

/-- The `files` computation as amended: each whitespace-delimited token is
first stripped of leading/trailing characters among `, . ' "`; the cleaned
token is kept iff it contains `/`, does not start with `http`, and ends in
a recognized extension; first occurrences are kept.  Written from the
amended claim, for comparison with `fallback_files`. -/
def amendedFallbackFiles (request : String) : List String :=
  dedupLoop (((pySplit (request.replace "\n" " ")).map
      (pyStripChars stripSet)).filter (fun cleaned =>
    pyContains cleaned "/" && !cleaned.startsWith "http" &&
      fallbackExts.any (fun ext => cleaned.endsWith ext))) []

/-- The per-pass result of C9 as amended: the truncated entry list is
coerced left to right, `k` counting the entries accepted so far; a missing
(or falsy) `task_id` defaults to `"T"` followed by `k + 1`.  Written from
the amended claim, for comparison with `planLoop`. -/
def specSurvivors : List PyVal → Nat → List TaskSpec
  | [], _ => []
  | e :: rest, k =>
    match coerceEntry k e with
    | some t => t :: specSurvivors rest (k + 1)
    | none => specSurvivors rest k

/-- Oracle for `json.loads` at the C5 counterexample input: the text
`"[]"` parses to the empty JSON array. -/
def loadsEmptyList : String → Except String PyVal := fun s =>
  if s = "[]" then .ok (.plist []) else .error "Expecting value"

/-- The C9 counterexample response text:
`{"tasks": ["bad", {"description": "d"}]}`. -/
def jsonC9 : String :=
  "\x7b\"tasks\": [\"bad\", \x7b\"description\": \"d\"\x7d]\x7d"

/-- Oracle for `json.loads` at the C9 counterexample input. -/
def loadsC9 : String → Except String PyVal := fun s =>
  if s = jsonC9 then
    .ok (.pdict [("tasks",
      .plist [.pstr "bad", .pdict [("description", .pstr "d")]])])
  else .error "Expecting value"

theorem tick_pos : (0 : ℚ) < tick := by norm_num [tick]

/-- Helper: after removal, a key is absent from the table. -/
theorem lookupLock_removeLock (tbl : LockTable) (key : String) :
    lookupLock (removeLock tbl key) key = none := by
  induction tbl with
  | nil => rfl
  | cons p rest ih =>
    by_cases h : p.1 = key
    · have heq : removeLock (p :: rest) key = removeLock rest key := by
        simp [removeLock, List.filter_cons, h]
      rw [heq]
      exact ih
    · have heq : removeLock (p :: rest) key = p :: removeLock rest key := by
        simp [removeLock, List.filter_cons, h]
      rw [heq]
      simp only [lookupLock] at ih ⊢
      rw [List.find?_cons_of_neg]
      · exact ih
      · simp [beq_iff_eq, h]

/-- Helper: exactly one record carries `key` after remove-then-insert. -/
theorem countP_setLock_removeLock (tbl : LockTable) (key : String)
    (l : FileLock) :
    (setLock (removeLock tbl key) key l).countP (fun p => p.1 == key) = 1 := by
  simp only [setLock, removeLock, List.countP_append]
  have h0 : ∀ (t : LockTable),
      (t.filter (fun p => p.1 != key)).countP (fun p => p.1 == key) = 0 := by
    intro t
    rw [List.countP_eq_zero]
    intro a ha
    have h2 := (List.mem_filter.mp ha).2
    rw [bne_iff_ne] at h2
    simp [h2]
  rw [h0]
  simp

/-- Helper: while a never-expiring record is held on `key`, the acquire
busy-wait loop raises `LockTimeoutError(key, t2)` at some instant, leaving
the table untouched, provided the fuel covers the timeout window. -/
theorem acquireLoop_held_no_expiry (key : String) (t2 : ℚ) (e2 : Option ℚ)
    (start : ℚ) (tbl : LockTable) (l : FileLock)
    (hl : lookupLock tbl key = some l) (hexp : l.expiry = none) :
    ∀ (fuel : Nat) (now : ℚ), now - start ≤ t2 →
      t2 + tick ≤ (now - start) + (fuel : ℚ) * tick →
      ∃ now', acquireLoop key t2 e2 start fuel tbl now =
        .timeout ⟨key, t2⟩ tbl now' := by
  intro fuel
  induction fuel with
  | zero =>
    intro now h1 h2
    exfalso
    have := tick_pos
    push_cast at h2
    linarith
  | succ f ih =>
    intro now h1 h2
    have hne : l.is_expired now = false := by
      simp [FileLock.is_expired, hexp]
    by_cases hto : now - start ≥ t2
    · exact ⟨now, by simp [acquireLoop, hl, hne, hto]⟩
    · push_neg at hto
      have hstep : acquireLoop key t2 e2 start (f + 1) tbl now =
          acquireLoop key t2 e2 start f tbl (now + tick) := by
        simp [acquireLoop, hl, hne, not_le.mpr hto]
      rw [hstep]
      by_cases h3 : now + tick - start ≤ t2
      · refine ih (now + tick) h3 ?_
        push_cast at h2 ⊢
        linarith
      · push_neg at h3
        have hf : 0 < f := by
          rcases Nat.eq_zero_or_pos f with h0 | h0
          · exfalso
            subst h0
            push_cast at h2
            have := tick_pos
            linarith
          · exact h0
        obtain ⟨f', rfl⟩ : ∃ f', f = f' + 1 := ⟨f - 1, by omega⟩
        have hne2 : l.is_expired (now + tick) = false := by
          simp [FileLock.is_expired, hexp]
        refine ⟨now + tick, ?_⟩
        have hge : now + tick - start ≥ t2 := le_of_lt h3
        simp [acquireLoop, hl, hne2, hge]

/-- C7: for every key and timeout `t2`, a second `acquire(key, t2)` issued
while a first live acquisition without expiry is held on `key` does not
succeed while the holder retains the lock: it raises `LockTimeoutError`
carrying that key and `t2` once `t2` elapses, and after the holder calls
`release(key)` an immediately subsequent `acquire(key, anyTimeout)`
succeeds. -/
theorem C7_second_acquire_blocks_release_frees
    (tbl : LockTable) (key : String) (l : FileLock) (t2 : ℚ)
    (e2 : Option ℚ) (now : ℚ) (fuel : Nat)
    (hl : lookupLock tbl key = some l) (hexp : l.expiry = none)
    (ht2 : 0 ≤ t2) (hfuel : t2 + tick ≤ (fuel : ℚ) * tick) :
    (∃ now', acquire_lock tbl key t2 e2 now fuel =
      .timeout ⟨key, t2⟩ tbl now') ∧
    ∀ (t3 : ℚ) (e3 : Option ℚ) (now3 : ℚ) (fuel3 : Nat), 1 ≤ fuel3 →
      acquire_lock (release_lock tbl key) key t3 e3 now3 fuel3 =
        .ok (setLock (release_lock tbl key) key ⟨key, now3, e3⟩)
          ⟨key, now3, e3⟩ now3 := by
  constructor
  · exact acquireLoop_held_no_expiry key t2 e2 now tbl l hl hexp fuel now
      (by simpa using ht2) (by simpa using hfuel)
  · intro t3 e3 now3 fuel3 hf3
    obtain ⟨f, rfl⟩ : ∃ f, fuel3 = f + 1 := ⟨fuel3 - 1, by omega⟩
    simp [acquire_lock, acquireLoop, release_lock, lookupLock_removeLock]

/-- Witness for C7 at a concrete held lock and timeout `tick`. -/
theorem C7_second_acquire_blocks_release_frees_witness :
    (∃ now', acquire_lock [("k", ⟨"k", 0, none⟩)] "k" tick none 0 2 =
      .timeout ⟨"k", tick⟩ [("k", ⟨"k", 0, none⟩)] now') ∧
    ∀ (t3 : ℚ) (e3 : Option ℚ) (now3 : ℚ) (fuel3 : Nat), 1 ≤ fuel3 →
      acquire_lock (release_lock [("k", ⟨"k", 0, none⟩)] "k") "k" t3 e3
          now3 fuel3 =
        .ok (setLock (release_lock [("k", ⟨"k", 0, none⟩)] "k") "k"
            ⟨"k", now3, e3⟩)
          ⟨"k", now3, e3⟩ now3 :=
  C7_second_acquire_blocks_release_frees [("k", ⟨"k", 0, none⟩)] "k"
    ⟨"k", 0, none⟩ tick none 0 2 rfl rfl (le_of_lt tick_pos)
    (by norm_num [tick])

/-- C8 counterexample: at `now - acquired_at = expiry` exactly (record
acquired at 0 with expiry 1, observed at 1), the code's `is_expired` uses a
strict `>` and still treats the record as live — a zero-timeout acquire
fails — while the claim's liveness formula (`now - acquired_at < expiry`)
says the record is no longer live. -/
theorem C8_liveness_boundary_counterexample :
    (FileLock.mk "k" 0 (some 1)).is_expired 1 = false ∧
    acquire_lock [("k", ⟨"k", 0, some 1⟩)] "k" 0 none 1 1 =
      .timeout ⟨"k", 0⟩ [("k", ⟨"k", 0, some 1⟩)] 1 ∧
    ¬ ((FileLock.mk "k" 0 (some 1)).expiry = none ∨ (1 : ℚ) - 0 < 1) := by
  refine ⟨?_, ?_, ?_⟩
  · with_unfolding_all rfl
  · with_unfolding_all rfl
  · simp

/-- C8 (amended): an `acquire(key, timeout = T, expiry = E)` followed by a
wait strictly longer than `E` lets a new `acquire(key, *)` succeed
immediately, without waiting out `T`: the record observed expired is
removed at once; a record is live iff its expiry is unset or
`now - acquired_at ≤ expiry` (the code's bound is inclusive); and exactly
one record per key remains in the table. -/
theorem C8_expiry_unblocks_amended
    (tbl : LockTable) (key : String) (l : FileLock) (E T now : ℚ)
    (e2 : Option ℚ) (fuel : Nat)
    (hl : lookupLock tbl key = some l) (hE : l.expiry = some E)
    (hwait : now - l.acquired_at > E) (hfuel : 1 ≤ fuel) :
    acquire_lock tbl key T e2 now fuel =
      .ok (setLock (removeLock tbl key) key ⟨key, now, e2⟩)
        ⟨key, now, e2⟩ now ∧
    (∀ (l' : FileLock) (n' : ℚ), l'.is_expired n' = false ↔
      (l'.expiry = none ∨ ∃ e, l'.expiry = some e ∧ n' - l'.acquired_at ≤ e)) ∧
    (setLock (removeLock tbl key) key ⟨key, now, e2⟩).countP
      (fun p => p.1 == key) = 1 := by
  refine ⟨?_, ?_, countP_setLock_removeLock tbl key _⟩
  · obtain ⟨f, rfl⟩ : ∃ f, fuel = f + 1 := ⟨fuel - 1, by omega⟩
    have hgt : E < now - l.acquired_at := hwait
    have hexp : l.is_expired now = true := by
      simp [FileLock.is_expired, hE, hgt]
    simp [acquire_lock, acquireLoop, hl, hexp]
  · intro l' n'
    cases hE' : l'.expiry with
    | none => simp [FileLock.is_expired, hE']
    | some e => simp [FileLock.is_expired, hE']

/-- Witness for C8 (amended) at a concrete expired record. -/
theorem C8_expiry_unblocks_amended_witness :
    acquire_lock [("k", ⟨"k", 0, some 1⟩)] "k" 0 none 2 1 =
      .ok (setLock (removeLock [("k", ⟨"k", 0, some 1⟩)] "k") "k"
          ⟨"k", 2, none⟩)
        ⟨"k", 2, none⟩ 2 ∧
    (∀ (l' : FileLock) (n' : ℚ), l'.is_expired n' = false ↔
      (l'.expiry = none ∨ ∃ e, l'.expiry = some e ∧ n' - l'.acquired_at ≤ e)) ∧
    (setLock (removeLock [("k", ⟨"k", 0, some 1⟩)] "k") "k"
        ⟨"k", 2, none⟩).countP (fun p => p.1 == "k") = 1 :=
  C8_expiry_unblocks_amended [("k", ⟨"k", 0, some 1⟩)] "k" ⟨"k", 0, some 1⟩
    1 0 2 none 1 rfl rfl (by norm_num) le_rfl

/-- C10: for every key with no live record in the table (absent, or present
but expired at the call instant), `acquire(key, timeout, expiry)` succeeds
immediately — it returns at the call instant itself — and never raises
`LockTimeoutError`, for every timeout value including 0: the loop checks
availability before comparing the elapsed time against the timeout. -/
theorem C10_free_key_acquire_never_times_out
    (tbl : LockTable) (key : String) (timeout : ℚ) (e : Option ℚ)
    (now : ℚ) (fuel : Nat)
    (hfree : lookupLock tbl key = none ∨
      ∃ l, lookupLock tbl key = some l ∧ l.is_expired now = true)
    (hfuel : 1 ≤ fuel) :
    ∃ tbl', acquire_lock tbl key timeout e now fuel =
      .ok tbl' ⟨key, now, e⟩ now := by
  obtain ⟨f, rfl⟩ : ∃ f, fuel = f + 1 := ⟨fuel - 1, by omega⟩
  rcases hfree with h | ⟨l, hl, hexp⟩
  · refine ⟨setLock tbl key ⟨key, now, e⟩, ?_⟩
    simp [acquire_lock, acquireLoop, h]
  · refine ⟨setLock (removeLock tbl key) key ⟨key, now, e⟩, ?_⟩
    simp [acquire_lock, acquireLoop, hl, hexp]

/-- Witness for C10 with a free key and timeout 0. -/
theorem C10_free_key_acquire_never_times_out_witness :
    ∃ tbl', acquire_lock [] "k" 0 none 0 1 = .ok tbl' ⟨"k", 0, none⟩ 0 :=
  C10_free_key_acquire_never_times_out [] "k" 0 none 0 1 (Or.inl rfl) le_rfl

set_option maxRecDepth 100000 in
/-- C1 (code bug, failing input): a single task that declares the same path
twice deadlocks against its own first acquisition, the lock-timeout handler
appends a failure result, and the `continue` only moves to the next file —
after which `locked_files` is non-empty, so the worker still runs and its
result is appended too: `execute_tasks` returns 2 results for 1 task. -/
theorem C1_duplicate_file_two_results :
    (execute_tasks okWorker
        [{ task_id := "T1", description := "d", files := ["a", "a"] }]
        none [] 0 502).map (fun rs => rs.map (fun r => r.task_id)) =
      .ok ["T1", "T1"] := by
  with_unfolding_all rfl

set_option maxRecDepth 100000 in
/-- C2 (code bug, failing input): task `T1` declares files `a` and `b`
while `a` is already locked in the injected manager.  The timeout on `a`
appends the failure result, but the `continue` moves to the next *file*:
`b` is then locked, `locked_files` is non-empty, and the worker is invoked
anyway — the claim requires the task to be skipped after the timeout. -/
theorem C2_lock_timeout_worker_still_invoked :
    (execute_tasks markerWorker
        [{ task_id := "T1", description := "d", files := ["a", "b"] }]
        none [("a", ⟨"a", 0, none⟩)] 0 502).map
      (fun rs => rs.map (fun r => r.task_id)) =
      .ok ["T1", "WORKER_RAN"] := by
  with_unfolding_all rfl

/-- C3 (code bug, failing input): when the worker raises, the generic
`except Exception` handler itself raises `TypeError` — its `WorkerResult`
construction omits the required `tests_run` field — so the exception
escapes `execute_tasks` instead of being converted to a failure result. -/
theorem C3_worker_exception_escapes :
    execute_tasks raisingWorker
        [{ task_id := "T1", description := "d" }] none [] 0 1 =
      .error (.typeErrorMissingTestsRun "T1") := by
  with_unfolding_all rfl

/-- C4 (code bug, failing input): a result claiming `files_created =
["x.txt"]` with `success = true` and `verification_passed = true`, where no
claimed path exists.  The claimed lists are emptied, but the downgrade
condition is evaluated after `files_modified`/`files_created` were already
overwritten with the verified lists, so it can never hold:
`verification_passed` stays `true` and `errors` stays empty, against the
claim's required downgrade. -/
theorem C4_verification_downgrade_unreachable :
    verify_files (fun _ => false)
        { task_id := "T1", success := true, files_modified := [],
          files_created := ["x.txt"], tests_run := [],
          verification_passed := true, errors := [] } =
      { task_id := "T1", success := true, files_modified := [],
        files_created := [], tests_run := [],
        verification_passed := true, errors := [] } := by
  with_unfolding_all rfl

/-- C5 counterexample: a completion that returns the valid JSON text `[]`
(top-level array) makes `json.loads` succeed with a non-dict value, and
`payload.get("tasks", [])` then raises `AttributeError`, which escapes
`plan` — so `plan` is not total over arbitrarily-shaped JSON. -/
theorem C5_top_level_array_raises_counterexample :
    plan (.ok "[]") loadsEmptyList "req" 6 = .error .attributeError := by
  with_unfolding_all rfl

/-- C5 (amended): `plan(request)` substitutes the fallback single-task plan
— whose description contains the literal request — whenever the completion
capability raises, the extracted response text is empty, JSON parsing
fails, or a parsed top-level JSON object yields an absent or empty task
list; and it returns some task list without raising whenever the parsed
payload is a JSON object whose `tasks` member, when present, is a list or
a string.  (A non-object payload, or an object whose `tasks` value is of
another shape, raises instead — the uncovered part of the original
claim.) -/
theorem C5_plan_recovers_listed_failures_amended (request : String)
    (loads : String → Except String PyVal) (max_tasks : Nat) :
    (∀ msg, plan (.error msg) loads request max_tasks =
      .ok (fallback_plan request)) ∧
    (∀ txt, extractJson txt = "" →
      plan (.ok txt) loads request max_tasks = .ok (fallback_plan request)) ∧
    (∀ txt msg, loads (extractJson txt) = .error msg →
      plan (.ok txt) loads request max_tasks = .ok (fallback_plan request)) ∧
    (∀ txt kvs, loads (extractJson txt) = .ok (.pdict kvs) →
      (dictGet kvs "tasks" = none ∨ dictGet kvs "tasks" = some (.plist [])) →
      plan (.ok txt) loads request max_tasks = .ok (fallback_plan request)) ∧
    (∀ txt kvs, loads (extractJson txt) = .ok (.pdict kvs) →
      (∀ v, dictGet kvs "tasks" = some v →
        (∃ xs, v = .plist xs) ∨ (∃ s, v = .pstr s)) →
      ∃ ts, plan (.ok txt) loads request max_tasks = .ok ts) ∧
    ((fallback_plan request).length = 1 ∧
      ∀ t ∈ fallback_plan request,
        t.description = "Implement user request: " ++ request) := by
  refine ⟨?_, ?_, ?_, ?_, ?_, ?_⟩
  · intro msg
    simp [plan]
  · intro txt h
    have hemp : (extractJson txt).isEmpty = true := by rw [h]; rfl
    simp [plan, hemp]
  · intro txt msg h
    cases hemp : (extractJson txt).isEmpty
    · simp [plan, hemp, h]
    · simp [plan, hemp]
  · intro txt kvs hload ht
    cases hemp : (extractJson txt).isEmpty
    · rcases ht with h | h <;> simp [plan, hemp, hload, h, planLoop]
    · simp [plan, hemp]
  · intro txt kvs hload hshape
    cases hemp : (extractJson txt).isEmpty
    · cases hv : dictGet kvs "tasks" with
      | none =>
        refine ⟨fallback_plan request, ?_⟩
        simp [plan, hemp, hload, hv, planLoop]
      | some v =>
        rcases hshape v hv with ⟨xs, rfl⟩ | ⟨s, rfl⟩
        · refine ⟨if (planLoop (xs.take max_tasks) []).isEmpty
              then fallback_plan request
              else planLoop (xs.take max_tasks) [], ?_⟩
          have hstep : plan (.ok txt) loads request max_tasks =
              (if (planLoop (xs.take max_tasks) []).isEmpty
               then .ok (fallback_plan request)
               else .ok (planLoop (xs.take max_tasks) [])) := by
            simp [plan, hemp, hload, hv]
          rw [hstep]
          split
          · next h => simp [h]
          · next h => simp [h]
        · refine ⟨if (planLoop ((s.toList.take max_tasks).map
                (fun c => PyVal.pstr (String.mk [c]))) []).isEmpty
              then fallback_plan request
              else planLoop ((s.toList.take max_tasks).map
                (fun c => PyVal.pstr (String.mk [c]))) [], ?_⟩
          have hstep : plan (.ok txt) loads request max_tasks =
              (if (planLoop ((s.toList.take max_tasks).map
                  (fun c => PyVal.pstr (String.mk [c]))) []).isEmpty
               then .ok (fallback_plan request)
               else .ok (planLoop ((s.toList.take max_tasks).map
                  (fun c => PyVal.pstr (String.mk [c]))) [])) := by
            simp [plan, hemp, hload, hv]
          rw [hstep]
          split
          · next h => simp [h]
          · next h => simp [h]
    · exact ⟨fallback_plan request, by simp [plan, hemp]⟩
  · constructor
    · simp [fallback_plan]
    · intro t ht
      simp [fallback_plan] at ht
      rw [ht]

/-- Witness for C5 (amended): concrete raising completion and concrete
unparseable text both yield the fallback plan. -/
theorem C5_plan_recovers_listed_failures_amended_witness :
    plan (.error "boom") loadsEmptyList "req" 6 = .ok (fallback_plan "req") ∧
    plan (.ok "x") loadsEmptyList "req" 6 = .ok (fallback_plan "req") :=
  ⟨(C5_plan_recovers_listed_failures_amended "req" loadsEmptyList 6).1 "boom",
   (C5_plan_recovers_listed_failures_amended "req" loadsEmptyList 6).2.2.1
     "x" "Expecting value" (by with_unfolding_all rfl)⟩

/-- C6 counterexample: the request `http/a.py` is a whitespace token that
contains `/` and ends in `.py`, so the claim's characterization puts it in
`files`; the code excludes tokens whose cleaned form starts with `http`,
so the fallback plan's `files` is empty. -/
theorem C6_http_token_counterexample :
    fallback_files "http/a.py" = [] ∧
    claimedFallbackFiles "http/a.py" = ["http/a.py"] := by
  constructor
  · with_unfolding_all rfl
  · with_unfolding_all rfl

/-- Helper: the fallback token loop is the clean-then-filter pipeline. -/
theorem fallbackFilesLoop_eq (toks : List String) :
    fallbackFilesLoop toks =
      (toks.map (pyStripChars stripSet)).filter (fun cleaned =>
        pyContains cleaned "/" && !cleaned.startsWith "http" &&
          fallbackExts.any (fun ext => cleaned.endsWith ext)) := by
  induction toks with
  | nil => rfl
  | cons t rest ih =>
    simp only [fallbackFilesLoop, List.map_cons, List.filter_cons]
    split
    · next h => simp only [h, ih]
    · next h =>
      simp only [Bool.not_eq_true] at h
      simp only [h, ih]

/-- C6 (amended): for every request, the fallback plan is exactly one
TaskSpec with `task_id = "T1"`, description `"Implement user request: " ++
request`, success criteria `["Request completed and verified"]`, empty
dependencies, budget `"medium"`, and `files` equal to every
whitespace-delimited token that — after stripping leading and trailing
characters among `, . ' "` — contains `/`, does not start with `http`, and
ends in one of `.py .md .json .yaml .yml .txt`, de-duplicated preserving
order. -/
theorem C6_fallback_plan_shape_amended (request : String) :
    fallback_plan request =
      [{ task_id := "T1"
         description := "Implement user request: " ++ request
         files := amendedFallbackFiles request
         success_criteria := ["Request completed and verified"]
         budget := "medium"
         dependencies := [] }] := by
  simp [fallback_plan, fallback_files, amendedFallbackFiles,
    fallbackFilesLoop_eq]

/-- C9 counterexample: in the parsed payload
`{"tasks": ["bad", {"description": "d"}]}` the first entry fails coercion
and is skipped, and the second entry — at position 2 of the array, so the
claim requires default id `T2` — receives `T1`, because the default uses
the count of tasks accepted so far (`len(tasks)+1`), not the array
position. -/
theorem C9_position_default_counterexample :
    plan (.ok jsonC9) loadsC9 "req" 6 =
      .ok [{ task_id := "T1", description := "d", files := [],
             success_criteria := [], budget := "medium",
             dependencies := [] }] ∧
    "T1" ≠ "T2" := by
  constructor
  · with_unfolding_all rfl
  · decide

/-- Helper: the source's accumulator loop equals the counter-based pass
described by the amended claim. -/
theorem planLoop_eq_specSurvivors (xs : List PyVal) :
    ∀ (acc : List TaskSpec),
      planLoop xs acc = acc ++ specSurvivors xs acc.length := by
  induction xs with
  | nil => intro acc; simp [planLoop, specSurvivors]
  | cons e rest ih =>
    intro acc
    simp only [planLoop, specSurvivors]
    cases h : coerceEntry acc.length e <;> simp [ih]

/-- Helper: the surviving pass never yields more entries than it reads. -/
theorem specSurvivors_length_le (xs : List PyVal) :
    ∀ (k : Nat), (specSurvivors xs k).length ≤ xs.length := by
  induction xs with
  | nil => intro k; simp [specSurvivors]
  | cons e rest ih =>
    intro k
    simp only [specSurvivors]
    cases h : coerceEntry k e with
    | some t =>
      simp only [List.length_cons]
      exact Nat.succ_le_succ (ih (k + 1))
    | none =>
      simp only [List.length_cons]
      exact Nat.le_succ_of_le (ih k)

/-- Helper: an accepted dict entry without a `task_id` key gets the default
id built from the accepted-so-far counter. -/
theorem coerceEntry_default_task_id (k : Nat) (kvs2 : List (String × PyVal))
    (t : TaskSpec) (hc : coerceEntry k (.pdict kvs2) = some t)
    (hid : dictGet kvs2 "task_id" = none) :
    t.task_id = "T" ++ toString (k + 1) := by
  simp only [coerceEntry, hid] at hc
  split at hc
  · exact absurd hc (by simp)
  · split at hc
    · exact absurd hc (by simp)
    · split at hc
      · exact absurd hc (by simp)
      · injection hc with h
        subst h
        rfl

/-- Helper: an accepted dict entry without a `budget` key gets budget
`"medium"`. -/
theorem coerceEntry_default_budget (k : Nat) (kvs2 : List (String × PyVal))
    (t : TaskSpec) (hc : coerceEntry k (.pdict kvs2) = some t)
    (hb : dictGet kvs2 "budget" = none) :
    t.budget = "medium" := by
  simp only [coerceEntry, hb] at hc
  split at hc
  · exact absurd hc (by simp)
  · split at hc
    · exact absurd hc (by simp)
    · split at hc
      · exact absurd hc (by simp)
      · injection hc with h
        subst h
        rfl

/-- C9 (amended): for every successfully parsed planner response whose
payload is a JSON object with a list-valued `tasks` member, the array is
truncated to at most `max_tasks` entries and passed left to right; an
entry that fails coercion is skipped without failing the plan; an accepted
entry missing `task_id` defaults to `T` followed by the number of entries
accepted so far plus one (the array position only when no earlier entry
was skipped); missing `budget` defaults to `"medium"`; and when no entry
survives, the fallback plan is returned instead. -/
theorem C9_parse_pass_amended (txt request : String)
    (loads : String → Except String PyVal) (max_tasks : Nat)
    (kvs : List (String × PyVal)) (xs : List PyVal)
    (hne : (extractJson txt).isEmpty = false)
    (hload : loads (extractJson txt) = .ok (.pdict kvs))
    (htasks : dictGet kvs "tasks" = some (.plist xs)) :
    plan (.ok txt) loads request max_tasks =
      .ok (if (specSurvivors (xs.take max_tasks) 0).isEmpty
           then fallback_plan request
           else specSurvivors (xs.take max_tasks) 0) ∧
    (specSurvivors (xs.take max_tasks) 0).length ≤ max_tasks ∧
    (∀ (k : Nat) (kvs2 : List (String × PyVal)) (t : TaskSpec),
      coerceEntry k (.pdict kvs2) = some t → dictGet kvs2 "task_id" = none →
      t.task_id = "T" ++ toString (k + 1)) ∧
    (∀ (k : Nat) (kvs2 : List (String × PyVal)) (t : TaskSpec),
      coerceEntry k (.pdict kvs2) = some t → dictGet kvs2 "budget" = none →
      t.budget = "medium") ∧
    (∀ (e : PyVal) (rest : List PyVal) (k : Nat),
      coerceEntry k e = none →
      specSurvivors (e :: rest) k = specSurvivors rest k) := by
  refine ⟨?_, ?_, coerceEntry_default_task_id, coerceEntry_default_budget, ?_⟩
  · have hstep : plan (.ok txt) loads request max_tasks =
        (if (specSurvivors (xs.take max_tasks) 0).isEmpty
         then .ok (fallback_plan request)
         else .ok (specSurvivors (xs.take max_tasks) 0)) := by
      simp [plan, hne, hload, htasks, planLoop_eq_specSurvivors]
    rw [hstep]
    split
    · next h => simp [h]
    · next h => simp [h]
  · refine le_trans (specSurvivors_length_le _ _) ?_
    rw [List.length_take]
    exact Nat.min_le_left _ _
  · intro e rest k h
    simp [specSurvivors, h]

/-- Witness for C9 (amended) at the concrete two-entry payload. -/
theorem C9_parse_pass_amended_witness :
    plan (.ok jsonC9) loadsC9 "req" 6 =
      .ok (if (specSurvivors ([PyVal.pstr "bad",
              PyVal.pdict [("description", PyVal.pstr "d")]].take 6)
            0).isEmpty
           then fallback_plan "req"
           else specSurvivors ([PyVal.pstr "bad",
              PyVal.pdict [("description", PyVal.pstr "d")]].take 6) 0) :=
  (C9_parse_pass_amended jsonC9 "req" loadsC9 6
    [("tasks", .plist [.pstr "bad", .pdict [("description", .pstr "d")]])]
    [.pstr "bad", .pdict [("description", .pstr "d")]]
    (by with_unfolding_all rfl) (by with_unfolding_all rfl) rfl).1
